import Mathlib

/-!
Verification of the candidate-selection engine of the AI newsletter pipeline:
the content-filtering pipeline (`src/processing/filter.py`), the embedding
similarity helper (`src/embeddings/encoder.py`) and the persistent vector
store (`src/embeddings/vectorstore.py`).

Modelling conventions:
* Python floats are modelled as exact rationals (`ℚ`); the only place where
  IEEE special values matter (division by a zero norm in
  `compute_similarity`) is modelled explicitly with a NaN/inf-aware result
  type.
* Python exceptions are modelled with `Option`/paired flags: `none` (or a
  `true` flag) marks an exception escaping the modelled region; every
  `try/except` handler of the source is translated explicitly.
* `datetime` values are modelled as seconds on the local clock since
  1970-01-01 together with an optional UTC offset (`none` = naive).
  Comparing or subtracting a naive and an aware datetime raises `TypeError`
  in Python; the model returns `none` in that case.
-/

/- Batteries marks the arithmetic of `Rat` `@[irreducible]`, which blocks
`decide` on concrete scores; restore the default reducibility for this file
so concrete runs of the model evaluate inside proofs. -/
attribute [local semireducible] Rat.add Rat.sub Rat.mul Rat.inv Rat.ofScientific

set_option maxRecDepth 8000

/-! ### Python `datetime` model -/

/-- Model of a Python `datetime`: local-clock seconds since 1970-01-01 plus
the `utcoffset` in seconds (`none` for a naive datetime). -/
structure PyDateTime where
  sec : Int
  off : Option Int
deriving DecidableEq

/-- Days since 1970-01-01 of a civil date (standard civil-from-days
inverse, as used by every proleptic-Gregorian implementation). -/
def daysFromCivil (y : Int) (m d : Nat) : Int :=
  let y' : Int := if m ≤ 2 then y - 1 else y
  let era : Int := (if 0 ≤ y' then y' else y' - 399) / 400
  let yoe : Nat := (y' - era * 400).toNat
  let mp : Nat := (m + 9) % 12
  let doy : Nat := (153 * mp + 2) / 5 + d - 1
  let doe : Nat := yoe * 365 + yoe / 4 - yoe / 100 + doy
  era * 146097 + (doe : Int) - 719468

def isLeap (y : Nat) : Bool :=
  y % 4 = 0 && (y % 100 ≠ 0 || y % 400 = 0)

def daysInMonth (y m : Nat) : Nat :=
  if m = 2 then (if isLeap y then 29 else 28)
  else if m = 4 || m = 6 || m = 9 || m = 11 then 30
  else 31

def digitVal (c : Char) : Option Nat :=
  if c.isDigit then some (c.toNat - 48) else none

def parseNat2 (a b : Char) : Option Nat := do
  let x ← digitVal a
  let y ← digitVal b
  pure (x * 10 + y)

def parseNat4 (a b c d : Char) : Option Nat := do
  let x ← digitVal a
  let y ← digitVal b
  let z ← digitVal c
  let w ← digitVal d
  pure (x * 1000 + y * 100 + z * 10 + w)

/-- Parse the `HH:MM` or `HH:MM:SS` time part; returns the second within the
day and the unconsumed tail. -/
def parseTimePart : List Char → Option (Nat × List Char)
  | h1 :: h2 :: ':' :: m1 :: m2 :: rest => do
    let h ← parseNat2 h1 h2
    let mi ← parseNat2 m1 m2
    if 24 ≤ h ∨ 60 ≤ mi then none else
    match rest with
    | ':' :: s1 :: s2 :: rest2 => do
      let s ← parseNat2 s1 s2
      if 60 ≤ s then none else some (h * 3600 + mi * 60 + s, rest2)
    | _ => some (h * 3600 + mi * 60, rest)
  | _ => none

/-- Parse an optional trailing `+HH:MM` / `-HH:MM` UTC offset. -/
def parseOffsetPart : List Char → Option (Option Int)
  | [] => some none
  | c :: rest =>
    if c = '+' ∨ c = '-' then
      match rest with
      | [h1, h2, ':', m1, m2] => do
        let h ← parseNat2 h1 h2
        let mi ← parseNat2 m1 m2
        if 60 ≤ mi ∨ 86400 ≤ h * 3600 + mi * 60 then none else
        let off : Int := (h * 3600 + mi * 60 : Nat)
        some (some (if c = '-' then -off else off))
      | _ => none
    else none

/-- Model of `datetime.fromisoformat` on the `YYYY-MM-DD[<sep>HH:MM[:SS]][±HH:MM]`
subset of ISO-8601 accepted by Python (fractional seconds are not modelled;
none of the considered inputs use them).  `none` models `ValueError`. -/
def fromisoformat (s : String) : Option PyDateTime :=
  match s.data with
  | y1 :: y2 :: y3 :: y4 :: '-' :: m1 :: m2 :: '-' :: d1 :: d2 :: rest => do
    let y ← parseNat4 y1 y2 y3 y4
    let m ← parseNat2 m1 m2
    let d ← parseNat2 d1 d2
    if y = 0 ∨ m = 0 ∨ 12 < m ∨ d = 0 ∨ daysInMonth y m < d then none else
    let base : Int := daysFromCivil (y : Int) m d * 86400
    match rest with
    | [] => some { sec := base, off := none }
    | _sep :: timeRest => do
      let (t, rest2) ← parseTimePart timeRest
      let off ← parseOffsetPart rest2
      some { sec := base + (t : Int), off := off }
  | _ => none

/-- Python `a >= b` on datetimes: mixing naive and aware raises `TypeError`
(modelled by `none`); two aware datetimes compare by UTC instant. -/
def pyDateGE (a b : PyDateTime) : Option Bool :=
  match a.off, b.off with
  | none, none => some (decide (b.sec ≤ a.sec))
  | some x, some y => some (decide (b.sec - y ≤ a.sec - x))
  | _, _ => none

/-- Python `a - b` on datetimes, in seconds; `none` models the `TypeError`
on mixing naive and aware datetimes. -/
def pyDateSub (a b : PyDateTime) : Option Int :=
  match a.off, b.off with
  | none, none => some (a.sec - b.sec)
  | some x, some y => some ((a.sec - x) - (b.sec - y))
  | _, _ => none

/-! ### Article records (`Dict[str, Any]` rows flowing through the pipeline) -/

/-- An article record.  `none` in an `Option` field models an absent
dictionary key (`article.get(...)` returning `None`). -/
structure Article where
  title : String := ""
  content : String := ""
  url : String := ""
  published_date : Option String := none
  source : String := ""
  embedding : Option (List ℚ) := none
  relevance_score : Option ℚ := none
deriving DecidableEq

/-- The two `NEWSLETTER_SETTINGS` entries read by `ContentFilter.__init__`. -/
structure ContentFilter where
  relevance_threshold : ℚ
  max_articles : Nat
deriving DecidableEq

/-- `ContentFilter()` built from the repository's `NEWSLETTER_SETTINGS`. -/
def newsletterContentFilter : ContentFilter :=
  { relevance_threshold := 0.75, max_articles := 5 }

/-! ### String helpers (structural-recursion models of the Python `str`
operations used by the filter; the library versions are position-based and
do not evaluate inside `decide`). -/

/-- Python `str.lower` (ASCII case folding, as all considered text is ASCII). -/
def strLower (s : String) : String :=
  String.mk (s.data.map Char.toLower)

def startsWithCh : List Char → List Char → Bool
  | [], _ => true
  | _ :: _, [] => false
  | a :: as, b :: bs => a == b && startsWithCh as bs

def infixOfCh : List Char → List Char → Bool
  | needle, [] => startsWithCh needle []
  | needle, c :: rest => startsWithCh needle (c :: rest) || infixOfCh needle rest

/-- Python `needle in hay` substring test. -/
def containsSub (hay needle : String) : Bool :=
  infixOfCh needle.data hay.data

def wordsAux : List Char → List Char → List String
  | [], acc => if acc.isEmpty then [] else [String.mk acc.reverse]
  | c :: rest, acc =>
    if c.isWhitespace then
      if acc.isEmpty then wordsAux rest [] else String.mk acc.reverse :: wordsAux rest []
    else wordsAux rest (c :: acc)

/-- Python `s.split()`: maximal runs of non-whitespace characters. -/
def wordsOf (s : String) : List String :=
  wordsAux s.data []

def replaceZAux : List Char → List Char
  | [] => []
  | c :: rest =>
    if c = 'Z' then '+' :: '0' :: '0' :: ':' :: '0' :: '0' :: replaceZAux rest
    else c :: replaceZAux rest

/-- Python `s.replace('Z', '+00:00')` (the only `replace` call in the
filter/vector-store code); every occurrence is replaced. -/
def replaceZ00 (s : String) : String :=
  String.mk (replaceZAux s.data)

/-! ### Relevance scoring (`ContentFilter._calculate_relevance_score`) -/

def keywords : List String :=
  ["ai", "machine learning", "deep learning", "product management",
   "agile", "innovation", "technology"]

/-- The keyword loop: `score += 0.2` per keyword found in the lowercased title. -/
def keywordScore (lowerTitle : String) : ℚ :=
  keywords.foldl (fun sc kw => if containsSub lowerTitle kw then sc + 0.2 else sc) 0

/-- `+0.3` when the content word count lies in `[500, 2000]`. -/
def lengthScore (content : String) : ℚ :=
  if 500 ≤ (wordsOf content).length ∧ (wordsOf content).length ≤ 2000 then 0.3 else 0

/-- `+0.2` when the lowercased content mentions "technical" or "algorithm". -/
def techScore (content : String) : ℚ :=
  if containsSub (strLower content) "technical" ∨ containsSub (strLower content) "algorithm"
  then 0.2 else 0

/-- The recency block of `_calculate_relevance_score`.  The inner
`except ValueError: pass` catches only parse failures; the `TypeError`
raised by subtracting an aware datetime from the naive `datetime.now()`
escapes it (`none`). -/
def recencyScore (now : Int) (a : Article) : Option ℚ :=
  match a.published_date with
  | none => some 0
  | some s =>
    if s = "" then some 0 else
    match fromisoformat (replaceZ00 s) with
    | none => some 0
    | some dt =>
      match pyDateSub { sec := now, off := none } dt with
      | none => none
      | some diff =>
        let days := Int.fdiv diff 86400
        some (if days ≤ 2 then 0.3 else if days ≤ 5 then 0.2 else 0)

/-- Python's binary `min` (computable `if`-form, so concrete scores evaluate). -/
def pymin (a b : ℚ) : ℚ := if b < a then b else a

/-- The `try` body of `_calculate_relevance_score`, including the final
`min(1.0, score)`; `none` is an exception escaping to the outer handler. -/
def relevanceCore (now : Int) (a : Article) : Option ℚ := do
  let base := keywordScore (strLower a.title) + lengthScore a.content + techScore a.content
  let r ← recencyScore now a
  pure (pymin 1 (base + r))

/-- `ContentFilter._calculate_relevance_score`: the outer
`except Exception` returns `0.0`. -/
def _calculate_relevance_score (now : Int) (a : Article) : ℚ :=
  (relevanceCore now a).getD 0

/-! ### Date filtering (`ContentFilter.filter_by_date`) -/

/-- The `for` loop of `filter_by_date`.  The inner `except ValueError`
catches parse failures only (such an article is skipped); the `TypeError`
from comparing an aware date with the naive cutoff escapes to the method's
outer handler (`none`). -/
def dateLoop (cutoff : Int) : List Article → Option (List Article)
  | [] => some []
  | a :: rest =>
    match a.published_date with
    | none => dateLoop cutoff rest
    | some s =>
      if s = "" then dateLoop cutoff rest
      else
        match fromisoformat (replaceZ00 s) with
        | none => dateLoop cutoff rest
        | some dt =>
          match pyDateGE dt { sec := cutoff, off := none } with
          | none => none
          | some true => do pure (a :: (← dateLoop cutoff rest))
          | some false => dateLoop cutoff rest

/-- `ContentFilter.filter_by_date`: cutoff is `datetime.now() - timedelta(days=max_age_days)`;
the outer `except Exception` returns the input list unchanged. -/
def filter_by_date (now : Int) (arts : List Article) (max_age_days : Int) : List Article :=
  match dateLoop (now - max_age_days * 86400) arts with
  | some out => out
  | none => arts

/-- The predicate that characterises which articles a successful
`filter_by_date` run keeps: a nonempty date string parsing to a naive
datetime at or after the cutoff. -/
def dateKeep (cutoff : Int) (a : Article) : Bool :=
  match a.published_date with
  | none => false
  | some s =>
    if s = "" then false
    else
      match fromisoformat (replaceZ00 s) with
      | none => false
      | some dt => dt.off.isNone && decide (cutoff ≤ dt.sec)

/-! ### Relevance filtering and sorting (`ContentFilter.filter_by_relevance`) -/

/-- One article of the relevance loop: skipped without an `embedding` key;
otherwise scored, kept when the score reaches the threshold, with
`article["relevance_score"] = score` attached. -/
def withScore (now : Int) (threshold : ℚ) (a : Article) : Option Article :=
  match a.embedding with
  | none => none
  | some _ =>
    let s := _calculate_relevance_score now a
    if threshold ≤ s then some { a with relevance_score := some s } else none

/-- The sort key `x.get("relevance_score", 0)`. -/
def relSortKey (a : Article) : ℚ :=
  a.relevance_score.getD 0

/-- Stable descending insertion: the model of Python's stable
`list.sort(key=..., reverse=True)` (a stable sort for a given key is unique,
so insertion sort is extensionally the library Timsort). -/
def insortDesc (a : Article) : List Article → List Article
  | [] => [a]
  | b :: l => if relSortKey b ≤ relSortKey a then a :: b :: l else b :: insortDesc a l

def sortByScoreDesc : List Article → List Article
  | [] => []
  | a :: l => insortDesc a (sortByScoreDesc l)

/-- `ContentFilter.filter_by_relevance`.  Nothing in the `try` body can
raise (the scorer catches its own exceptions), so the `except` fallback is
dead and the method is total. -/
def filter_by_relevance (F : ContentFilter) (now : Int) (arts : List Article) : List Article :=
  sortByScoreDesc (arts.filterMap (withScore now F.relevance_threshold))

/-! ### Duplicate suppression (`ContentFilter.filter_duplicates`,
`ContentFilter._calculate_similarity`) -/

/-- Python set insertion over a list kept without duplicates. -/
def setInsert (w : String) (l : List String) : List String :=
  if l.contains w then l else w :: l

/-- The distinct elements of a word list (Python `set(...)`). -/
def toWordSet (l : List String) : List String :=
  l.foldl (fun acc w => setInsert w acc) []

/-- `ContentFilter._calculate_similarity`: Jaccard similarity of the
lower-cased whitespace-tokenised word sets; `0.0` when the union is empty.
Nothing in its `try` body can raise. -/
def _calculate_similarity (t1 t2 : String) : ℚ :=
  let w1 := toWordSet (wordsOf (strLower t1))
  let w2 := toWordSet (wordsOf (strLower t2))
  let inter := (w1.filter (fun w => w2.contains w)).length
  let uni := (toWordSet (w1 ++ w2)).length
  if 0 < uni then (inter : ℚ) / (uni : ℚ) else 0

/-- The loop of `filter_duplicates` with the `seen_titles` set (iteration
order of the set only feeds an existential check, so a list models it). -/
def dupGo (seen : List String) : List Article → List Article
  | [] => []
  | a :: rest =>
    let t := strLower a.title
    if seen.contains t || t = "" then dupGo seen rest
    else if seen.any (fun s => decide (0.8 < _calculate_similarity t s)) then dupGo seen rest
    else a :: dupGo (t :: seen) rest

/-- `ContentFilter.filter_duplicates`; its `try` body is total. -/
def filter_duplicates (arts : List Article) : List Article :=
  dupGo [] arts

/-- `ContentFilter.limit_articles`: `articles[:self.max_articles]`. -/
def limit_articles (F : ContentFilter) (arts : List Article) : List Article :=
  arts.take F.max_articles

/-! ### The pipeline (`ContentFilter.filter_articles`) -/

/-- The `try` body of `filter_articles`.  Each stage call is the handled
method (every stage catches its own exceptions), so no exception can reach
this body: `none` would model one escaping to the outer handler. -/
def filterArticlesCore (F : ContentFilter) (now : Int) (arts : List Article) :
    Option (List Article) :=
  some (limit_articles F (filter_duplicates (filter_by_relevance F now
    (filter_by_date now arts 7))))

/-- `ContentFilter.filter_articles`: the outer `except Exception` returns `[]`. -/
def filter_articles (F : ContentFilter) (now : Int) (arts : List Article) : List Article :=
  (filterArticlesCore F now arts).getD []

/-- Sanity of the datetime model: 2024-01-01 is epoch day 19723, naive
without a suffix, aware with a `+00:00` offset, and out-of-range or
malformed dates are `ValueError`. -/
theorem fromisoformat_sanity :
    fromisoformat "2024-01-01" = some { sec := 19723 * 86400, off := none }
    ∧ fromisoformat "2024-01-01T00:00:00+00:00"
        = some { sec := 19723 * 86400, off := some 0 }
    ∧ fromisoformat "2024-13-01" = none
    ∧ fromisoformat "not a date" = none := by decide

/-! ### Embedding similarity (`TextEncoder.compute_similarity`) -/

/-- `np.dot` on equal-length vectors (the only way the code calls it). -/
def dotQ (u v : List ℚ) : ℚ :=
  (List.zipWith (fun a b => a * b) u v).sum

/-- The value `compute_similarity` returns.  numpy division of a finite
numerator by `0.0` yields `nan` (for `0/0`) or `±inf` with a
`RuntimeWarning` — no exception is raised, so the `except` branch returning
`0.0` never runs.  A finite result `dot/(‖a‖·‖b‖)` is kept symbolically as
the dot product together with the square `‖a‖²·‖b‖²` of the (generally
irrational) denominator. -/
inductive SimResult where
  | nan : SimResult
  | pinf : SimResult
  | ninf : SimResult
  | finite : ℚ → ℚ → SimResult
deriving DecidableEq

/-- `TextEncoder.compute_similarity`:
`np.dot(e1, e2) / (np.linalg.norm(e1) * np.linalg.norm(e2))`. -/
def compute_similarity (e1 e2 : List ℚ) : SimResult :=
  let num := dotQ e1 e2
  let den2 := dotQ e1 e1 * dotQ e2 e2
  if den2 = 0 then
    if num = 0 then SimResult.nan
    else if 0 < num then SimResult.pinf else SimResult.ninf
  else SimResult.finite num den2

/-! ### Vector store (`VectorStore`, over annoy's `AnnoyIndex`) -/

/-- A metadata record as `add_articles` stores it. -/
structure MetaRecord where
  title : String
  url : String
  content : String
  published_date : String
  source : String
deriving DecidableEq

/-- A Python dict key of the metadata table: `int` while entries are added
in memory, `str` after a `json.dump`/`json.load` round trip (JSON object
keys are strings). -/
inductive PyKey where
  | int : Nat → PyKey
  | str : String → PyKey
deriving DecidableEq

/-- The `AnnoyIndex(384, 'angular')` state: its fixed dimension, the staged
items, and whether it has been built or loaded (annoy raises on `add_item`
and on `build` in either of those states). -/
structure AnnoyIndex where
  f : Nat
  items : List (Nat × List ℚ)
  built : Bool
deriving DecidableEq

/-- The persisted pair `articles.ann` + `metadata.json`.  `__init__` loads
only when both exist, and `save` always writes both, so the model keeps the
pair as one value. -/
structure SavedStore where
  items : List (Nat × List ℚ)
  metadata : List (PyKey × MetaRecord)
deriving DecidableEq

/-- The in-memory `VectorStore` state plus its on-disk artifacts.  The
metadata dict is an insertion-ordered association list. -/
structure VectorStore where
  vector_dimension : Nat
  index : AnnoyIndex
  metadata : List (PyKey × MetaRecord)
  current_id : Nat
  disk : Option SavedStore
deriving DecidableEq

/-- `self.metadata[k] = v` on the insertion-ordered dict. -/
def dictInsert (m : List (PyKey × MetaRecord)) (k : PyKey) (v : MetaRecord) :
    List (PyKey × MetaRecord) :=
  if m.any (fun p => p.1 == k) then m.map (fun p => if p.1 == k then (k, v) else p)
  else m ++ [(k, v)]

/-- `self.metadata[k]` / `k in self.metadata`. -/
def dictGet (m : List (PyKey × MetaRecord)) (k : PyKey) : Option MetaRecord :=
  (m.find? (fun p => p.1 == k)).map Prod.snd

/-- The metadata row stored for an article (each field via `.get(..., "")`). -/
def toMeta (a : Article) : MetaRecord :=
  { title := a.title, url := a.url, content := a.content,
    published_date := a.published_date.getD "", source := a.source }

/-- The `for` loop of `add_articles`.  The returned flag is `true` when an
`annoy` call raised (wrong vector length, or adding to a built/loaded
index); mutations made before the raise persist, as they do on the Python
object. -/
def addLoop : VectorStore → List Article → VectorStore × Bool
  | st, [] => (st, false)
  | st, a :: rest =>
    match a.embedding with
    | none => addLoop st rest
    | some v =>
      if st.index.built then (st, true)
      else if v.length ≠ st.index.f then (st, true)
      else
        addLoop
          { st with
            index := { st.index with items := st.index.items ++ [(st.current_id, v)] },
            metadata := dictInsert st.metadata (PyKey.int st.current_id) (toMeta a),
            current_id := st.current_id + 1 }
          rest

/-- JSON serialisation of a dict key: `json.dump` writes `int` keys as their
decimal strings. -/
def jsonKey : PyKey → PyKey
  | PyKey.int n => PyKey.str (toString n)
  | PyKey.str s => PyKey.str s

def dumpMetadata (m : List (PyKey × MetaRecord)) : List (PyKey × MetaRecord) :=
  m.map (fun p => (jsonKey p.1, p.2))

/-- `VectorStore.save`: writes both artifacts; `annoy` refuses to save an
unbuilt index, and that exception is caught leaving the disk unchanged. -/
def VectorStore.save (st : VectorStore) : VectorStore :=
  if st.index.built then
    { st with disk := some { items := st.index.items, metadata := dumpMetadata st.metadata } }
  else st

/-- `int(k)` over a loaded (string) key; persisted keys are the canonical
decimal strings `json.dump` wrote. -/
def decToNatAux : Nat → List Char → Nat
  | acc, [] => acc
  | acc, c :: rest =>
    if c.isDigit then decToNatAux (acc * 10 + (c.toNat - 48)) rest else acc

def keyToNat : PyKey → Nat
  | PyKey.int n => n
  | PyKey.str s => decToNatAux 0 s.data

/-- `VectorStore.load`: restores the pair and recomputes
`current_id = max(map(int, keys)) + 1` when the metadata is nonempty.  A
loaded annoy index refuses further `add_item`/`build` calls (modelled by
`built := true`).  With no persisted pair the raised file error is caught
and the state is unchanged. -/
def VectorStore.load (st : VectorStore) : VectorStore :=
  match st.disk with
  | none => st
  | some sv =>
    let st1 := { st with
      index := { st.index with items := sv.items, built := true },
      metadata := sv.metadata }
    match sv.metadata with
    | [] => st1
    | _ =>
      { st1 with
        current_id := ((sv.metadata.map (fun p => keyToNat p.1)).foldl max 0) + 1 }

/-- `VectorStore.__init__`: a fresh 384-dimension index, then `load()` when
the persisted pair exists. -/
def VectorStore.init (disk : Option SavedStore) : VectorStore :=
  let st : VectorStore :=
    { vector_dimension := 384,
      index := { f := 384, items := [], built := false },
      metadata := [], current_id := 0, disk := disk }
  match disk with
  | none => st
  | some _ => st.load

/-- `VectorStore.add_articles`: on a raise inside the loop the
except-handler keeps the partial mutations and skips build/save; otherwise
`index.build(10)` (which raises, caught, on an already built/loaded index)
and `save()`. -/
def add_articles (st : VectorStore) (arts : List Article) : VectorStore :=
  match addLoop st arts with
  | (st1, true) => st1
  | (st1, false) =>
    if st1.index.built then st1
    else VectorStore.save { st1 with index := { st1.index with built := true } }

/-- Exact comparison `du/√nu > dv/√nv` (with `x/√0` read as `0`, the cosine
annoy computes against a zero vector), by signs and cross-multiplied
squares — rational arithmetic standing for the irrational cosines. -/
def cosGt (du nu dv nv : ℚ) : Bool :=
  if 0 < du then
    if 0 < dv then decide (dv * dv * nu < du * du * nv) else true
  else if du < 0 then
    if dv < 0 then decide (du * du * nv < dv * dv * nu) else false
  else decide (dv < 0)

/-- Item `u` is strictly closer to the query than `v` in angular distance
(`dist = √(2 - 2·cos)`, monotone decreasing in the cosine). -/
def closerTo (q u v : List ℚ) : Bool :=
  cosGt (dotQ q u) (dotQ u u) (dotQ q v) (dotQ v v)

def insertByCloser (q : List ℚ) (x : Nat × List ℚ) :
    List (Nat × List ℚ) → List (Nat × List ℚ)
  | [] => [x]
  | y :: l => if closerTo q y.2 x.2 then y :: insertByCloser q x l else x :: y :: l

/-- `get_nns_by_vector` ordering: exact nearest-first order over the stored
items (the 10-tree approximation is modelled as exact search; annoy leaves
the order of exact ties unspecified, modelled here as insertion order). -/
def sortByCloser (q : List ℚ) : List (Nat × List ℚ) → List (Nat × List ℚ)
  | [] => []
  | x :: l => insertByCloser q x (sortByCloser q l)

/-- `VectorStore.search`: the first `k` neighbour ids, keeping the metadata
of each id present in the dict (`if idx in self.metadata`).  The
floating-point `similarity = 1 - dist/2` attached to each row is not
modelled (no claim concerns it); querying an unbuilt index is the caught
exception path returning `[]`. -/
def search (st : VectorStore) (q : List ℚ) (k : Nat) : List MetaRecord :=
  if st.index.built then
    ((sortByCloser q st.index.items).take k).filterMap
      (fun it => dictGet st.metadata (PyKey.int it.1))
  else []

/-! ### Concrete runs used by the claims -/

/-- A 384-dimension embedding (the store's fixed dimension). -/
def eVec : List ℚ := 1 :: List.replicate 383 0

def storeArt : Article :=
  { title := "T", content := "c", url := "u", published_date := some "2024-01-01",
    source := "s", embedding := some eVec }

/-- The store after committing one article to a fresh instance. -/
def vsOne : VectorStore := add_articles (VectorStore.init none) [storeArt]

/-- A fresh instance constructed over the artifacts `vsOne` persisted
(`__init__` finds both files and calls `load()`). -/
def vsReload : VectorStore := VectorStore.init vsOne.disk

def artDup1 : Article := { title := "AI Breakthrough 2024" }

def artDup2 : Article := { title := "Ai breakthrough 2024!!" }

def staleAwareArt : Article :=
  { title := "stale ai item", published_date := some "2024-01-01T00:00:00Z",
    embedding := some [1] }

/-- Naive `datetime.now()` at 2024-01-11T00:00:00. -/
def nowJan11 : Int := daysFromCivil 2024 1 11 * 86400

def badDimArt : Article := { title := "wrong dimension", embedding := some [1] }

def goodArt : Article :=
  { title := "well formed", url := "u2", content := "c2", source := "s2",
    embedding := some eVec }

/-- C1: index round-trip.  Before `save`, `search` with the committed
article's own embedding returns its metadata; after persisting and loading
into a fresh instance the same `search` returns `[]`, because `json.dump`
wrote the integer metadata keys as strings while `search` looks the integer
annoy ids up — only the `current_id = 1 + max(ids)` half of the claim
holds. -/
theorem C1_roundtrip_search_lost :
    search vsOne eVec 5 = [toMeta storeArt]
    ∧ vsOne.current_id = 1
    ∧ vsOne.metadata = [(PyKey.int 0, toMeta storeArt)]
    ∧ vsReload.metadata = [(PyKey.str "0", toMeta storeArt)]
    ∧ search vsReload eVec 5 = []
    ∧ vsReload.current_id = 1 := by decide

/-- C3 (counterexample): a batch whose first entry has a wrong-dimension
embedding.  The claim predicts the later well-formed entry is still
processed; in fact the raise aborts the whole loop at the function-level
handler, so nothing at all is committed. -/
theorem C3_wrong_dimension_counterexample :
    (add_articles (VectorStore.init none) [badDimArt, goodArt]).metadata = []
    ∧ (add_articles (VectorStore.init none) [badDimArt, goodArt]).current_id = 0
    ∧ goodArt.embedding = some eVec ∧ eVec.length = 384 := by decide

/-- C4: an article dated 10 days before `now` but with a `'Z'` suffix.  The
rewritten date parses to an aware datetime, comparing it with the naive
cutoff raises `TypeError`, and the stage-level handler returns the input
list unchanged — the 10-day-old article is kept, not excluded. -/
theorem C4_stale_aware_article_kept :
    fromisoformat (replaceZ00 "2024-01-01T00:00:00Z")
      = some { sec := nowJan11 - 10 * 86400, off := some 0 }
    ∧ filter_by_date nowJan11 [staleAwareArt] 7 = [staleAwareArt] := by decide

/-- C7 (counterexample): the two scenario titles.  `"2024"` and `"2024!!"`
are distinct whitespace tokens, so the Jaccard similarity is 1/2, below the
0.8 threshold, and `filter_duplicates` does not keep only the first
article. -/
theorem C7_near_duplicate_counterexample :
    filter_duplicates [artDup1, artDup2] ≠ [artDup1] := by decide

/-- C7 (amended): on those titles the Jaccard similarity of the lower-cased
whitespace-tokenised word sets is exactly 1/2 ≤ 0.8, so `filter_duplicates`
retains both articles in order. -/
theorem C7_near_duplicate_amended :
    filter_duplicates [artDup1, artDup2] = [artDup1, artDup2]
    ∧ _calculate_similarity artDup1.title artDup2.title = 1 / 2 := by decide

/-! ### Dot-product lemmas for the zero-norm analysis -/

theorem dotQ_nil_right (u : List ℚ) : dotQ u [] = 0 := by
  cases u <;> simp [dotQ]

theorem dotQ_cons (x y : ℚ) (u v : List ℚ) :
    dotQ (x :: u) (y :: v) = x * y + dotQ u v := by
  simp [dotQ]

theorem dotQ_self_nonneg (u : List ℚ) : 0 ≤ dotQ u u := by
  induction u with
  | nil => simp [dotQ]
  | cons x u ih =>
    rw [dotQ_cons]
    exact add_nonneg (mul_self_nonneg x) ih

theorem dotQ_self_eq_zero (u : List ℚ) (h : dotQ u u = 0) : ∀ x ∈ u, x = 0 := by
  induction u with
  | nil => simp
  | cons x u ih =>
    rw [dotQ_cons] at h
    have hx : x * x = 0 := by
      have h1 := mul_self_nonneg x
      have h2 := dotQ_self_nonneg u
      linarith
    have hu : dotQ u u = 0 := by
      have h1 := mul_self_nonneg x
      have h2 := dotQ_self_nonneg u
      linarith
    intro y hy
    rcases List.mem_cons.mp hy with rfl | hy
    · exact mul_self_eq_zero.mp hx
    · exact ih hu y hy

theorem dotQ_zero_left (u : List ℚ) (h : ∀ x ∈ u, x = 0) :
    ∀ v : List ℚ, dotQ u v = 0 := by
  induction u with
  | nil => intro v; simp [dotQ]
  | cons x u ih =>
    intro v
    cases v with
    | nil => exact dotQ_nil_right _
    | cons y v =>
      rw [dotQ_cons, h x (List.mem_cons_self x u),
        ih (fun z hz => h z (List.mem_cons_of_mem x hz)) v]
      ring

theorem dotQ_zero_right (v : List ℚ) (h : ∀ x ∈ v, x = 0) :
    ∀ u : List ℚ, dotQ u v = 0 := by
  induction v with
  | nil => intro u; exact dotQ_nil_right _
  | cons y v ih =>
    intro u
    cases u with
    | nil => simp [dotQ]
    | cons x u =>
      rw [dotQ_cons, h y (List.mem_cons_self y v),
        ih (fun z hz => h z (List.mem_cons_of_mem y hz)) u]
      ring

/-- C2: when either embedding has zero norm, `compute_similarity` evaluates
`0.0 / 0.0`, which numpy returns as NaN with a warning — no exception is
raised and the handler returning `0.0` never runs, so the result is NaN,
not `0.0`. -/
theorem C2_zero_norm_yields_nan (e1 e2 : List ℚ)
    (h : dotQ e1 e1 = 0 ∨ dotQ e2 e2 = 0) :
    compute_similarity e1 e2 = SimResult.nan := by
  have hnum : dotQ e1 e2 = 0 := by
    rcases h with h | h
    · exact dotQ_zero_left e1 (dotQ_self_eq_zero e1 h) e2
    · exact dotQ_zero_right e2 (dotQ_self_eq_zero e2 h) e1
  have hden : dotQ e1 e1 * dotQ e2 e2 = 0 := by
    rcases h with h | h <;> rw [h] <;> ring
  simp [compute_similarity, hnum, hden]

/-- C2 (witness): a zero vector against a nonzero one. -/
theorem C2_zero_norm_witness :
    dotQ [0, 0] [0, 0] = 0
    ∧ compute_similarity [0, 0] [3, 4] = SimResult.nan :=
  ⟨by decide, C2_zero_norm_yields_nan [0, 0] [3, 4] (Or.inl (by decide))⟩

/-! ### Relevance-score bounds and the aware-date failure mode -/

theorem kwFold_nonneg (t : String) (l : List String) (acc : ℚ) (h : 0 ≤ acc) :
    0 ≤ l.foldl (fun sc kw => if containsSub t kw then sc + 0.2 else sc) acc := by
  induction l generalizing acc with
  | nil => simpa using h
  | cons kw l ih =>
    simp only [List.foldl_cons]
    apply ih
    split
    · linarith
    · exact h

theorem keywordScore_nonneg (t : String) : 0 ≤ keywordScore t :=
  kwFold_nonneg t keywords 0 le_rfl

theorem lengthScore_nonneg (c : String) : 0 ≤ lengthScore c := by
  unfold lengthScore; split <;> norm_num

theorem techScore_nonneg (c : String) : 0 ≤ techScore c := by
  unfold techScore; split <;> norm_num

theorem recencyScore_nonneg (now : Int) (a : Article) (r : ℚ)
    (h : recencyScore now a = some r) : 0 ≤ r := by
  unfold recencyScore at h
  repeat' split at h
  all_goals first
    | exact Option.noConfusion h
    | (injection h with h; subst h)
  all_goals repeat' split
  all_goals norm_num

/-- C8: `_calculate_relevance_score` always lands in `[0, 1]`: every
additive term is nonnegative, the total is clamped by `min(1.0, ·)`, and
the exception fallback returns `0.0`. -/
theorem C8_score_in_unit_interval (now : Int) (a : Article) :
    0 ≤ _calculate_relevance_score now a ∧ _calculate_relevance_score now a ≤ 1 := by
  cases hrec : recencyScore now a with
  | none =>
    have hcore : relevanceCore now a = none := by
      simp [relevanceCore, hrec]
    rw [_calculate_relevance_score, hcore]
    exact ⟨le_rfl, by norm_num⟩
  | some r =>
    have hcore : relevanceCore now a
        = some (pymin 1 (keywordScore (strLower a.title) + lengthScore a.content
            + techScore a.content + r)) := by
      simp [relevanceCore, hrec]
    rw [_calculate_relevance_score, hcore]
    have h0 : 0 ≤ keywordScore (strLower a.title) + lengthScore a.content
        + techScore a.content + r :=
      add_nonneg (add_nonneg (add_nonneg (keywordScore_nonneg _)
        (lengthScore_nonneg _)) (techScore_nonneg _)) (recencyScore_nonneg now a r hrec)
    simp only [Option.getD_some, pymin]
    split
    · constructor <;> linarith
    · constructor <;> linarith

/-- C9: a `published_date` that parses (after the `'Z' → '+00:00'` rewrite)
to an aware datetime makes the naive-minus-aware subtraction raise
`TypeError`; the inner `except ValueError` does not catch it, the outer
handler discards every accumulated point, and the score is `0.0` whatever
the title, content or recency would have contributed. -/
theorem C9_aware_date_scores_zero (now : Int) (a : Article) (s : String)
    (dt : PyDateTime) (hp : a.published_date = some s) (hs : s ≠ "")
    (hdt : fromisoformat (replaceZ00 s) = some dt) (ho : dt.off.isSome = true) :
    _calculate_relevance_score now a = 0 := by
  obtain ⟨o, hoff⟩ := Option.isSome_iff_exists.mp ho
  have hrec : recencyScore now a = none := by
    simp [recencyScore, hp, hs, hdt, pyDateSub, hoff]
  have hcore : relevanceCore now a = none := by
    simp [relevanceCore, hrec]
  rw [_calculate_relevance_score, hcore]
  rfl

def awareArt : Article :=
  { title := "ai technology briefing", content := "technical algorithm details",
    published_date := some "2024-01-01T00:00:00Z" }

def awareDT : PyDateTime := { sec := daysFromCivil 2024 1 1 * 86400, off := some 0 }

/-- C9 (witness): a keyword- and content-rich article whose `'Z'`-suffixed
date parses to an aware datetime scores `0.0`. -/
theorem C9_aware_date_witness :
    awareArt.published_date = some "2024-01-01T00:00:00Z"
    ∧ ("2024-01-01T00:00:00Z" : String) ≠ ""
    ∧ fromisoformat (replaceZ00 "2024-01-01T00:00:00Z") = some awareDT
    ∧ awareDT.off.isSome = true
    ∧ keywordScore (strLower awareArt.title) = 0.4
    ∧ techScore awareArt.content = 0.2
    ∧ _calculate_relevance_score 0 awareArt = 0 :=
  ⟨rfl, by decide, by decide, rfl, by decide, by decide,
    C9_aware_date_scores_zero 0 awareArt "2024-01-01T00:00:00Z" awareDT rfl
      (by decide) (by decide) rfl⟩

/-! ### A built or loaded index rejects every further addition (C10) -/

theorem addLoop_of_built (st : VectorStore) (es : List Article)
    (h : st.index.built = true) :
    addLoop st es = (st, false) ∨ addLoop st es = (st, true) := by
  induction es with
  | nil => left; rfl
  | cons a rest ih =>
    cases he : a.embedding with
    | none => simpa [addLoop, he] using ih
    | some v => right; simp [addLoop, he, h]

/-- C10: once the annoy structure is built (any successful `add_articles`)
or loaded (`load()`), each later `add_articles` call changes nothing: the
first staged embedding makes `add_item` raise, the handler swallows the
exception, and metadata, `current_id` and the persisted artifacts keep
their values (with no staged embedding, the redundant `build` raises
instead, with the same outcome). -/
theorem C10_add_after_build_is_noop (st : VectorStore) (es : List Article)
    (h : st.index.built = true) : add_articles st es = st := by
  rcases addLoop_of_built st es h with hl | hl <;> simp [add_articles, hl, h]

/-- C10 (witness): adding to the committed one-article store is a no-op. -/
theorem C10_add_after_build_witness :
    vsOne.index.built = true ∧ add_articles vsOne [goodArt] = vsOne :=
  ⟨by decide, C10_add_after_build_is_noop vsOne [goodArt] (by decide)⟩

/-! ### Wrong-dimension insertions abort the batch (C3) -/

/-- An article whose embedding, if any, fits the index dimension (annoy's
`add_item` accepts it). -/
def embOk (f : Nat) (a : Article) : Bool :=
  match a.embedding with
  | none => true
  | some v => v.length == f

theorem addLoop_stops_at_bad (bad : Article) (v : List ℚ)
    (hv : bad.embedding = some v) (pre : List Article) :
    ∀ (st : VectorStore) (post : List Article), st.index.built = false →
      (∀ a ∈ pre, embOk st.index.f a = true) → v.length ≠ st.index.f →
      addLoop st (pre ++ bad :: post) = ((addLoop st pre).1, true)
      ∧ (addLoop st pre).2 = false := by
  induction pre with
  | nil =>
    intro st post hb _hpre hlen
    exact ⟨by simp [addLoop, hv, hb, hlen], rfl⟩
  | cons a pre ih =>
    intro st post hb hpre hlen
    cases he : a.embedding with
    | none =>
      have h1 := ih st post hb (fun x hx => hpre x (List.mem_cons_of_mem a hx)) hlen
      simpa [addLoop, he] using h1
    | some w =>
      have hw : (w.length == st.index.f) = true := by
        have := hpre a (List.mem_cons_self a pre)
        simpa [embOk, he] using this
      have hw' : ¬ w.length ≠ st.index.f := by
        simpa using of_decide_eq_true hw
      have h1 := ih
        { st with
          index := { st.index with items := st.index.items ++ [(st.current_id, w)] },
          metadata := dictInsert st.metadata (PyKey.int st.current_id) (toMeta a),
          current_id := st.current_id + 1 }
        post (by simpa using hb)
        (fun x hx => by
          simpa using hpre x (List.mem_cons_of_mem a hx))
        (by simpa using hlen)
      simpa [addLoop, he, hb, hw'] using h1

/-- C3 (amended): a wrong-dimension entry makes annoy's `add_item` raise;
the function-level handler catches it, so no exception escapes and
`current_id` never advances for that entry — but processing stops there:
entries staged before it keep their partial mutations, the entries after it
are never processed, and the rebuild/save step is skipped. -/
theorem C3_wrong_dimension_amended (st : VectorStore) (pre post : List Article)
    (bad : Article) (v : List ℚ) (hb : st.index.built = false)
    (hpre : ∀ a ∈ pre, embOk st.index.f a = true)
    (hv : bad.embedding = some v) (hlen : v.length ≠ st.index.f) :
    add_articles st (pre ++ bad :: post) = (addLoop st pre).1 := by
  obtain ⟨h1, _⟩ := addLoop_stops_at_bad bad v hv pre st post hb hpre hlen
  simp [add_articles, h1]

/-- C3 (witness): one good entry, then the wrong-dimension entry, then
another good entry — the run stops at the bad entry with the first one
staged. -/
theorem C3_wrong_dimension_witness :
    (VectorStore.init none).index.built = false
    ∧ (∀ a ∈ [goodArt], embOk (VectorStore.init none).index.f a = true)
    ∧ badDimArt.embedding = some [1]
    ∧ ([1] : List ℚ).length ≠ (VectorStore.init none).index.f
    ∧ add_articles (VectorStore.init none) ([goodArt] ++ badDimArt :: [goodArt])
        = (addLoop (VectorStore.init none) [goodArt]).1 :=
  ⟨rfl, by decide, rfl, by decide,
    C3_wrong_dimension_amended (VectorStore.init none) [goodArt] [goodArt] badDimArt [1]
      rfl (by decide) rfl (by decide)⟩

/-! ### The date loop: characterisation and totality (C5, C6) -/

theorem dateLoop_ok_filter (c : Int) (l : List Article) :
    ∀ out, dateLoop c l = some out → out = l.filter (fun a => dateKeep c a) := by
  induction l with
  | nil => intro out h; cases h; rfl
  | cons a rest ih =>
    intro out h
    cases hp : a.published_date with
    | none =>
      rw [List.filter_cons_of_neg (by simp [dateKeep, hp])]
      exact ih out (by simpa [dateLoop, hp] using h)
    | some s =>
      by_cases hs : s = ""
      · rw [List.filter_cons_of_neg (by simp [dateKeep, hp, hs])]
        subst hs
        exact ih out (by simpa [dateLoop, hp] using h)
      · cases hf : fromisoformat (replaceZ00 s) with
        | none =>
          rw [List.filter_cons_of_neg (by simp [dateKeep, hp, hs, hf])]
          exact ih out (by simpa [dateLoop, hp, hs, hf] using h)
        | some dt =>
          cases hoff : dt.off with
          | some o =>
            have : dateLoop c (a :: rest) = none := by
              simp [dateLoop, hp, hs, hf, pyDateGE, hoff]
            rw [this] at h
            exact Option.noConfusion h
          | none =>
            by_cases hc : c ≤ dt.sec
            · have h' : (dateLoop c rest).bind (fun r => some (a :: r)) = some out := by
                simpa [dateLoop, hp, hs, hf, pyDateGE, hoff, hc, Option.bind] using h
              cases hr : dateLoop c rest with
              | none => rw [hr] at h'; exact Option.noConfusion h'
              | some r =>
                rw [hr] at h'
                have hout : out = a :: r := by
                  cases h'; rfl
                rw [List.filter_cons_of_pos (by simp [dateKeep, hp, hs, hf, hoff, hc]),
                  hout, ih r hr]
            · rw [List.filter_cons_of_neg (by simp [dateKeep, hp, hs, hf, hoff, hc])]
              exact ih out (by simpa [dateLoop, hp, hs, hf, pyDateGE, hoff, hc] using h)

theorem dateLoop_all_keep (c : Int) (l : List Article)
    (h : ∀ a ∈ l, dateKeep c a = true) : dateLoop c l = some l := by
  induction l with
  | nil => rfl
  | cons a rest ih =>
    have ha := h a (List.mem_cons_self a rest)
    have hrest := ih (fun x hx => h x (List.mem_cons_of_mem a hx))
    cases hp : a.published_date with
    | none => simp [dateKeep, hp] at ha
    | some s =>
      by_cases hs : s = ""
      · simp [dateKeep, hp, hs] at ha
      · cases hf : fromisoformat (replaceZ00 s) with
        | none => simp [dateKeep, hp, hs, hf] at ha
        | some dt =>
          simp only [dateKeep, hp, hf, if_neg hs, Bool.and_eq_true,
            Option.isNone_iff_eq_none, decide_eq_true_eq] at ha
          obtain ⟨hoff, hc⟩ := ha
          simp [dateLoop, hp, hs, hf, pyDateGE, hoff, hc, hrest]

/-- C6: the pipeline never propagates an exception and always returns a
list: the `try` body of `filter_articles` (each stage handling its own
exceptions) computes exactly the returned list, never an escaping error;
when the date loop raises mid-batch the stage falls back to its unmodified
input; and when it completes, each failed single-article computation
(missing or unparsable date) has only excluded that article, the output
being exactly the `dateKeep` filter of the input. -/
theorem C6_no_exception_escapes (F : ContentFilter) (now : Int) (arts : List Article) :
    filterArticlesCore F now arts = some (filter_articles F now arts)
    ∧ (dateLoop (now - 7 * 86400) arts = none → filter_by_date now arts 7 = arts)
    ∧ (∀ out, dateLoop (now - 7 * 86400) arts = some out
        → out = arts.filter (fun a => dateKeep (now - 7 * 86400) a)) := by
  refine ⟨rfl, ?_, ?_⟩
  · intro h
    unfold filter_by_date
    rw [h]
  · exact dateLoop_ok_filter _ _

/-- C6 (witness): on a batch whose only article raises `TypeError` inside
the date stage, the body still returns a list and the stage returns its
input unchanged. -/
theorem C6_no_exception_witness :
    filterArticlesCore newsletterContentFilter nowJan11 [staleAwareArt]
      = some (filter_articles newsletterContentFilter nowJan11 [staleAwareArt])
    ∧ filter_by_date nowJan11 [staleAwareArt] 7 = [staleAwareArt] :=
  ⟨(C6_no_exception_escapes newsletterContentFilter nowJan11 [staleAwareArt]).1,
    (C6_no_exception_escapes newsletterContentFilter nowJan11 [staleAwareArt]).2.1
      (by decide)⟩

/-! ### Stable sort lemmas (C5) -/

theorem insortDesc_perm (a : Article) (l : List Article) :
    (insortDesc a l).Perm (a :: l) := by
  induction l with
  | nil => exact List.Perm.refl _
  | cons b l ih =>
    unfold insortDesc
    split
    · exact List.Perm.refl _
    · exact (ih.cons b).trans (List.Perm.swap a b l)

theorem sortByScoreDesc_perm (l : List Article) : (sortByScoreDesc l).Perm l := by
  induction l with
  | nil => exact List.Perm.refl _
  | cons a l ih => exact (insortDesc_perm a (sortByScoreDesc l)).trans (ih.cons a)

theorem insortDesc_sorted (a : Article) (l : List Article)
    (h : l.Pairwise (fun x y => relSortKey y ≤ relSortKey x)) :
    (insortDesc a l).Pairwise (fun x y => relSortKey y ≤ relSortKey x) := by
  induction l with
  | nil => simp [insortDesc]
  | cons b l ih =>
    rw [List.pairwise_cons] at h
    obtain ⟨hb, hl⟩ := h
    unfold insortDesc
    split
    case isTrue hba =>
      rw [List.pairwise_cons]
      refine ⟨?_, List.pairwise_cons.mpr ⟨hb, hl⟩⟩
      intro x hx
      rcases List.mem_cons.mp hx with rfl | hx
      · exact hba
      · exact le_trans (hb x hx) hba
    case isFalse hba =>
      rw [List.pairwise_cons]
      refine ⟨?_, ih hl⟩
      intro x hx
      rcases List.mem_cons.mp ((insortDesc_perm a l).mem_iff.mp hx) with rfl | hx
      · exact le_of_not_le hba
      · exact hb x hx

theorem sortByScoreDesc_sorted (l : List Article) :
    (sortByScoreDesc l).Pairwise (fun x y => relSortKey y ≤ relSortKey x) := by
  induction l with
  | nil => simp [sortByScoreDesc]
  | cons a l ih => exact insortDesc_sorted a (sortByScoreDesc l) ih

/-! ### Duplicate suppression keeps pairwise-distinct titles (C5) -/

/-- Two articles that `filter_duplicates` never identifies: distinct
lower-cased titles whose Jaccard similarity (in both argument orders) stays
at or below the 0.8 threshold. -/
def distinctTitlesB (a b : Article) : Bool :=
  (strLower a.title != strLower b.title)
  && decide (_calculate_similarity (strLower a.title) (strLower b.title) ≤ 0.8)
  && decide (_calculate_similarity (strLower b.title) (strLower a.title) ≤ 0.8)

theorem distinctTitlesB_symm {a b : Article} (h : distinctTitlesB a b = true) :
    distinctTitlesB b a = true := by
  simp only [distinctTitlesB, Bool.and_eq_true, bne_iff_ne, decide_eq_true_eq] at h ⊢
  exact ⟨⟨Ne.symm h.1.1, h.2⟩, h.1.2⟩

theorem distinctTitlesB_titles (a b x y : Article) (hx : x.title = a.title)
    (hy : y.title = b.title) : distinctTitlesB x y = distinctTitlesB a b := by
  simp [distinctTitlesB, hx, hy]

theorem dupGo_keeps_all (l : List Article) :
    ∀ seen : List String,
      (∀ a ∈ l, strLower a.title ≠ "") →
      (∀ a ∈ l, seen.contains (strLower a.title) = false) →
      (∀ a ∈ l, seen.any
        (fun s => decide (0.8 < _calculate_similarity (strLower a.title) s)) = false) →
      l.Pairwise (fun a b => distinctTitlesB a b = true) →
      dupGo seen l = l := by
  induction l with
  | nil => intro seen _ _ _ _; rfl
  | cons a rest ih =>
    intro seen hne hcon hany hpw
    rw [List.pairwise_cons] at hpw
    obtain ⟨hhead, htail⟩ := hpw
    have hn := hne a (List.mem_cons_self a rest)
    have hc : strLower a.title ∉ seen := by
      simpa using hcon a (List.mem_cons_self a rest)
    have ha := hany a (List.mem_cons_self a rest)
    have step : dupGo seen (a :: rest) = a :: dupGo (strLower a.title :: seen) rest := by
      simp [dupGo, hc, ha, hn]
    rw [step]
    congr 1
    apply ih
    · exact fun b hb => hne b (List.mem_cons_of_mem a hb)
    · intro b hb
      have hd := hhead b hb
      simp only [distinctTitlesB, Bool.and_eq_true, bne_iff_ne, decide_eq_true_eq] at hd
      have hcb : strLower b.title ∉ seen := by
        simpa using hcon b (List.mem_cons_of_mem a hb)
      simp [List.contains_cons, hcb, Ne.symm hd.1.1]
    · intro b hb
      have hd := hhead b hb
      simp only [distinctTitlesB, Bool.and_eq_true, bne_iff_ne, decide_eq_true_eq] at hd
      simp [List.any_cons, hany b (List.mem_cons_of_mem a hb), not_lt.mpr hd.2]
    · exact htail

theorem filter_duplicates_keeps_all (l : List Article)
    (hne : ∀ a ∈ l, strLower a.title ≠ "")
    (hpw : l.Pairwise (fun a b => distinctTitlesB a b = true)) :
    filter_duplicates l = l :=
  dupGo_keeps_all l [] hne (fun _ _ => rfl) (fun _ _ => rfl) hpw

theorem withScore_title (now : Int) (t : ℚ) (a b : Article)
    (h : withScore now t a = some b) : b.title = a.title := by
  cases he : a.embedding with
  | none => simp [withScore, he] at h
  | some v =>
    simp only [withScore, he] at h
    split at h
    · simp only [Option.some.injEq] at h
      subst h
      rfl
    · exact Option.noConfusion h

/-! ### C5: the pipeline on clean inputs, and its counterexample -/

/-- C5 (amended): on articles with embeddings, naive in-window dates, and
nonempty pairwise-distinct titles that are also pairwise below the 0.8
near-duplicate threshold, the pipeline keeps exactly the articles whose
computed relevance score reaches the threshold (with the score attached),
stably sorted in descending score order, truncated to `max_articles` — and
the output is indeed sorted descending. -/
theorem C5_pipeline_amended (F : ContentFilter) (now : Int) (arts : List Article)
    (hemb : ∀ a ∈ arts, a.embedding.isSome = true)
    (hdate : ∀ a ∈ arts, dateKeep (now - 7 * 86400) a = true)
    (hne : ∀ a ∈ arts, strLower a.title ≠ "")
    (hpw : arts.Pairwise (fun a b => distinctTitlesB a b = true)) :
    filter_articles F now arts
      = (sortByScoreDesc
          (arts.filterMap (withScore now F.relevance_threshold))).take F.max_articles
    ∧ (filter_articles F now arts).Pairwise
        (fun x y => relSortKey y ≤ relSortKey x) := by
  have _hemb := hemb
  have hd : filter_by_date now arts 7 = arts := by
    unfold filter_by_date
    rw [dateLoop_all_keep _ _ hdate]
  have hpwL : (arts.filterMap (withScore now F.relevance_threshold)).Pairwise
      (fun a b => distinctTitlesB a b = true) := by
    apply List.Pairwise.filterMap (withScore now F.relevance_threshold)
      (fun a b hab => ?_) hpw
    intro x hx y hy
    rw [distinctTitlesB_titles a b x y (withScore_title now _ a x hx)
      (withScore_title now _ b y hy)]
    exact hab
  have hpwS : (sortByScoreDesc
      (arts.filterMap (withScore now F.relevance_threshold))).Pairwise
      (fun a b => distinctTitlesB a b = true) :=
    ((sortByScoreDesc_perm _).pairwise_iff
      (fun h => distinctTitlesB_symm h)).mpr hpwL
  have hneS : ∀ x ∈ sortByScoreDesc
      (arts.filterMap (withScore now F.relevance_threshold)), strLower x.title ≠ "" := by
    intro x hx
    obtain ⟨a, haarts, hwa⟩ :=
      List.mem_filterMap.mp ((sortByScoreDesc_perm _).mem_iff.mp hx)
    rw [show x.title = a.title from withScore_title now _ a x hwa]
    exact hne a haarts
  have hdup : filter_duplicates (sortByScoreDesc
      (arts.filterMap (withScore now F.relevance_threshold)))
      = sortByScoreDesc (arts.filterMap (withScore now F.relevance_threshold)) :=
    filter_duplicates_keeps_all _ hneS hpwS
  have heq : filter_articles F now arts
      = (sortByScoreDesc
          (arts.filterMap (withScore now F.relevance_threshold))).take F.max_articles := by
    show limit_articles F (filter_duplicates (filter_by_relevance F now
      (filter_by_date now arts 7))) = _
    rw [hd]
    show limit_articles F (filter_duplicates (sortByScoreDesc
      (arts.filterMap (withScore now F.relevance_threshold)))) = _
    rw [hdup]
    rfl
  refine ⟨heq, ?_⟩
  rw [heq]
  exact List.Pairwise.sublist (List.take_sublist _ _) (sortByScoreDesc_sorted _)

def nearDupA : Article :=
  { title := "ai machine learning innovation technology",
    published_date := some "2024-01-05", embedding := some [1] }

def nearDupB : Article :=
  { title := "ai machine learning innovation technology news",
    published_date := some "2024-01-05", embedding := some [1] }

/-- C5 (counterexample): two articles that both pass the age filter, carry
embeddings, score 0.8 ≥ 0.75 and have distinct titles — the claim predicts
both are kept (sorted, within `max_articles = 5`), but their titles are
near-duplicates (Jaccard 5/6 > 0.8), so the pipeline returns only the
first. -/
theorem C5_near_duplicate_counterexample :
    _calculate_relevance_score nowJan11 nearDupA = 0.8
    ∧ _calculate_relevance_score nowJan11 nearDupB = 0.8
    ∧ dateKeep (nowJan11 - 7 * 86400) nearDupA = true
    ∧ dateKeep (nowJan11 - 7 * 86400) nearDupB = true
    ∧ nearDupA.title ≠ nearDupB.title
    ∧ _calculate_similarity (strLower nearDupB.title) (strLower nearDupA.title) = 5 / 6
    ∧ filter_articles newsletterContentFilter nowJan11 [nearDupA, nearDupB]
        = [{ nearDupA with relevance_score := some 0.8 }] := by decide

def dullArt : Article :=
  { title := "quarterly market report", published_date := some "2024-01-05",
    embedding := some [1] }

/-- C5 (witness): one qualifying and one below-threshold article with
unrelated titles — the pipeline output is exactly the take-5 of the sorted
qualifying articles. -/
theorem C5_pipeline_witness :
    ((∀ a ∈ [nearDupA, dullArt], a.embedding.isSome = true)
      ∧ (∀ a ∈ [nearDupA, dullArt], dateKeep (nowJan11 - 7 * 86400) a = true)
      ∧ (∀ a ∈ [nearDupA, dullArt], strLower a.title ≠ "")
      ∧ List.Pairwise (fun a b => distinctTitlesB a b = true) [nearDupA, dullArt])
    ∧ (filter_articles newsletterContentFilter nowJan11 [nearDupA, dullArt]
        = (sortByScoreDesc ([nearDupA, dullArt].filterMap
            (withScore nowJan11 newsletterContentFilter.relevance_threshold))).take
            newsletterContentFilter.max_articles
      ∧ (filter_articles newsletterContentFilter nowJan11 [nearDupA, dullArt]).Pairwise
          (fun x y => relSortKey y ≤ relSortKey x)) :=
  ⟨⟨by decide, by decide, by decide, by decide⟩,
    C5_pipeline_amended newsletterContentFilter nowJan11 [nearDupA, dullArt]
      (by decide) (by decide) (by decide) (by decide)⟩
